import Mathlib

/-!
Shallow embedding of the payroll-registry core of `src/лаб3с3.cpp`.

Modelling choices:
* C++ `double` values (base pay, bonus percent, pays, averages) are modelled
  as exact rationals `ℚ`; the source formulas contain no explicit rounding.
* `std::string` is modelled as Lean `String`; `std::string::size()` as
  `String.length`.
* The three exception classes become the constructors of `PayrollError`;
  a throwing constructor or member function returns `Except PayrollError _`.
* `PayrollDepartment`'s single mutable field `workTypes` is threaded
  explicitly: `addWorkType` returns the post-state together with the
  emitted warning flag and the error (if any).  The only mutation in the
  source is the final `push_back`, performed after every check.
-/

namespace Payroll

/-- The three exception kinds of the source (`InvalidRateException`,
`DuplicateWorkTypeException`, `EmptyWorkListException`), each carrying its
message string. -/
inductive PayrollError where
  | invalidRate (msg : String)
  | duplicateWorkType (msg : String)
  | emptyWorkList (msg : String)
  deriving Repr, DecidableEq

/-- The two concrete implementations of `IBonusStrategy`:
`NoBonusStrategy` and `PercentageBonusStrategy` (the latter stores its
`bonusPercent` field). -/
inductive IBonusStrategy where
  | noBonus
  | percentage (bonusPercent : ℚ)
  deriving Repr, DecidableEq

/-- The member `computePay`: `NoBonusStrategy::computePay` returns `basePay`;
`PercentageBonusStrategy::computePay` returns
`basePay * (1.0 + bonusPercent / 100.0)`. -/
def computePay : IBonusStrategy → ℚ → ℚ
  | .noBonus, basePay => basePay
  | .percentage bonusPercent, basePay => basePay * (1 + bonusPercent / 100)

/-- The fallible constructor `PercentageBonusStrategy::PercentageBonusStrategy`:
throws `InvalidRateException` when the percent is negative or exceeds 100. -/
def PercentageBonusStrategy.make (percent : ℚ) : Except PayrollError IBonusStrategy :=
  if percent < 0 then
    .error (.invalidRate "bonus percent must be >= 0")
  else if percent > 100 then
    .error (.invalidRate "bonus percent cannot exceed 100%")
  else
    .ok (.percentage percent)

/-- The state of a constructed `WorkTypeBase`: name, base pay and the bound
bonus strategy (non-null by construction). -/
structure WorkTypeBase where
  name : String
  basePay : ℚ
  bonusStrategy : IBonusStrategy
  deriving Repr, DecidableEq

/-- The fallible constructor `WorkTypeBase::WorkTypeBase`; the strategy
argument is an `Option` because the incoming `shared_ptr` may be null.
Checks follow the source order: empty name, `basePay <= 0`,
`basePay > 1000000.0`, null strategy. -/
def WorkTypeBase.make (name : String) (basePay : ℚ)
    (strategy : Option IBonusStrategy) : Except PayrollError WorkTypeBase :=
  if name.isEmpty then
    .error (.invalidRate "work type name must not be empty")
  else if basePay ≤ 0 then
    .error (.invalidRate "base pay must be > 0")
  else if basePay > 1000000 then
    .error (.invalidRate "base pay cannot exceed 1,000,000")
  else
    match strategy with
    | none => .error (.invalidRate "bonus strategy must not be null")
    | some s => .ok { name := name, basePay := basePay, bonusStrategy := s }

/-- The accessor `WorkTypeBase::getFinalPay`: recomputes the final pay from the bound
strategy on each read. -/
def WorkTypeBase.getFinalPay (w : WorkTypeBase) : ℚ :=
  computePay w.bonusStrategy w.basePay

/-- The registry `PayrollDepartment`: its single field is the vector `workTypes`
(insertion order preserved). -/
structure PayrollDepartment where
  workTypes : List WorkTypeBase
  deriving Repr, DecidableEq

/-- The scan `PayrollDepartment::existsWorkType`: linear scan comparing each stored
entry's name with the candidate. -/
def PayrollDepartment.existsWorkType (d : PayrollDepartment) (name : String) : Bool :=
  d.workTypes.any (fun w => w.name == name)

/-- Result of one `addWorkType` call: whether the long-name advisory was
emitted on `cerr`, the post-state of the registry, and the thrown error if
the call failed (`none` means success). -/
structure AddResult where
  warned : Bool
  post : PayrollDepartment
  thrown : Option PayrollError
  deriving Repr, DecidableEq

/-- The strategy-selection block of `addWorkType` (source lines 194–204):
`NoBonusStrategy` when `bonusPercent == 0.0`; otherwise the caller-side
upper-bound check throws `InvalidRateException` when `bonusPercent > 100.0`,
and else the `PercentageBonusStrategy` constructor runs (which re-checks the
range itself). -/
def selectStrategy (bonusPercent : ℚ) : Except PayrollError IBonusStrategy :=
  if bonusPercent = 0 then
    .ok .noBonus
  else if bonusPercent > 100 then
    .error (.invalidRate "bonus percent cannot exceed 100%")
  else
    PercentageBonusStrategy.make bonusPercent

/-- The operation `PayrollDepartment::addWorkType`. Mirrors the source control flow:
emit the advisory when `name.size() > 50`; throw `DuplicateWorkTypeException`
when the name already exists; select the strategy (`selectStrategy`);
construct the `WorkTypeBase`; finally `push_back`.  A thrown exception
leaves `workTypes` unchanged (the push is the last step). -/
def PayrollDepartment.addWorkType (d : PayrollDepartment) (name : String)
    (basePay : ℚ) (bonusPercent : ℚ := 0) : AddResult :=
  let warned := decide (name.length > 50)
  if d.existsWorkType name then
    { warned := warned, post := d,
      thrown := some (.duplicateWorkType ("work type '" ++ name ++ "' already exists")) }
  else
    match selectStrategy bonusPercent with
    | .error e => { warned := warned, post := d, thrown := some e }
    | .ok strategy =>
      match WorkTypeBase.make name basePay (some strategy) with
      | .error e => { warned := warned, post := d, thrown := some e }
      | .ok wt =>
        { warned := warned, post := { workTypes := d.workTypes ++ [wt] }, thrown := none }

/-- The operation `PayrollDepartment::calculateAveragePay`: throws
`EmptyWorkListException` on an empty registry, otherwise sums the final
pays in order and divides by the entry count. -/
def PayrollDepartment.calculateAveragePay (d : PayrollDepartment) :
    Except PayrollError ℚ :=
  if d.workTypes.isEmpty then
    .error (.emptyWorkList "cannot calculate average")
  else
    .ok ((d.workTypes.foldl (fun sum w => sum + w.getFinalPay) 0) /
      (d.workTypes.length : ℚ))

/-- Observable output of `PayrollDepartment::printAll` (`listAll` in the
spec): the explicit empty indication, or the ordered list of
(name, basePay, finalPay) triples it prints. -/
inductive ListAllResult where
  | empty
  | entries (rows : List (String × ℚ × ℚ))
  deriving Repr, DecidableEq

/-- The operation `PayrollDepartment::printAll`: prints the empty message on an empty
registry, otherwise one line per stored entry in order with its name,
base pay and final pay. -/
def PayrollDepartment.printAll (d : PayrollDepartment) : ListAllResult :=
  if d.workTypes.isEmpty then
    .empty
  else
    .entries (d.workTypes.map (fun w => (w.name, w.basePay, w.getFinalPay)))

/-- The registry invariant: no two stored entries share a name
(case-sensitive exact comparison). -/
def namesUnique (d : PayrollDepartment) : Prop :=
  (d.workTypes.map WorkTypeBase.name).Nodup

/-- One `calculateAveragePay` call as a state transition.  The member
function is declared `const` and its body only reads `workTypes`, so the
registry after the call is the registry before it, paired with the
returned value (or thrown error). -/
def PayrollDepartment.calculateAveragePayOp (d : PayrollDepartment) :
    PayrollDepartment × Except PayrollError ℚ :=
  (d, d.calculateAveragePay)

/-- One `printAll` call as a state transition; the member function is
`const` and only reads `workTypes`. -/
def PayrollDepartment.printAllOp (d : PayrollDepartment) :
    PayrollDepartment × ListAllResult :=
  (d, d.printAll)

end Payroll

namespace Payroll

/-! ### Helper lemmas: the fallible constructors -/

/-- Construction of `PercentageBonusStrategy` succeeds exactly on `[0, 100]`,
returning the strategy that stores the percent. -/
theorem PercentageBonusStrategy.make_accepts (p : ℚ) (h0 : 0 ≤ p) (h1 : p ≤ 100) :
    PercentageBonusStrategy.make p = .ok (.percentage p) := by
  unfold PercentageBonusStrategy.make
  rw [if_neg (not_lt.mpr h0), if_neg (not_lt.mpr h1)]

/-- A negative percent is rejected by the constructor's first check. -/
theorem PercentageBonusStrategy.make_neg (p : ℚ) (h : p < 0) :
    PercentageBonusStrategy.make p = .error (.invalidRate "bonus percent must be >= 0") := by
  unfold PercentageBonusStrategy.make
  rw [if_pos h]

/-- A percent above 100 is rejected by the constructor's second check. -/
theorem PercentageBonusStrategy.make_gt (p : ℚ) (h : p > 100) :
    PercentageBonusStrategy.make p = .error (.invalidRate "bonus percent cannot exceed 100%") := by
  unfold PercentageBonusStrategy.make
  rw [if_neg (not_lt.mpr (le_of_lt (lt_trans (by norm_num) h))), if_pos h]

/-- Construction of `WorkTypeBase` succeeds on a non-empty name, a base pay in
`(0, 1000000]` and a present strategy. -/
theorem WorkTypeBase.make_ok (n : String) (b : ℚ) (s : IBonusStrategy)
    (hname : n.isEmpty = false) (hb0 : 0 < b) (hb1 : b ≤ 1000000) :
    WorkTypeBase.make n b (some s) = .ok ⟨n, b, s⟩ := by
  unfold WorkTypeBase.make
  rw [hname]
  rw [if_neg (Bool.false_ne_true), if_neg (not_le.mpr hb0), if_neg (not_lt.mpr hb1)]

/-- Construction of `WorkTypeBase` either succeeds or throws some
`InvalidRateException`. -/
theorem WorkTypeBase.make_ok_or_invalidRate (n : String) (b : ℚ)
    (s : Option IBonusStrategy) :
    (∃ wt, WorkTypeBase.make n b s = .ok wt) ∨
      (∃ msg, WorkTypeBase.make n b s = .error (.invalidRate msg)) := by
  unfold WorkTypeBase.make
  split_ifs with h1 h2 h3
  · exact Or.inr ⟨_, rfl⟩
  · exact Or.inr ⟨_, rfl⟩
  · exact Or.inr ⟨_, rfl⟩
  · cases s with
    | none => exact Or.inr ⟨_, rfl⟩
    | some st => exact Or.inl ⟨_, rfl⟩

/-- Construction of `WorkTypeBase` succeeds exactly when every structural
precondition holds. -/
theorem WorkTypeBase.make_ok_iff (n : String) (b : ℚ) (s : Option IBonusStrategy) :
    (∃ wt, WorkTypeBase.make n b s = .ok wt) ↔
      (n.isEmpty = false ∧ 0 < b ∧ b ≤ 1000000 ∧ s ≠ none) := by
  unfold WorkTypeBase.make
  split_ifs with h1 h2 h3
  · simp [h1]
  · simp only [Bool.not_eq_true] at h1
    simp [h1, not_lt.mpr h2]
  · simp only [Bool.not_eq_true] at h1
    push_neg at h2
    simp [h1, h2, h3, not_le.mpr h3]
  · simp only [Bool.not_eq_true] at h1
    push_neg at h2 h3
    cases s with
    | none => simp
    | some st => simp [h1, h2, h3]

/-! ### Helper lemmas: strategy selection -/

/-- With a percent in `[0, 100]`, selection succeeds: the no-bonus strategy
at exactly 0, the percentage strategy otherwise. -/
theorem selectStrategy_ok (p : ℚ) (h0 : 0 ≤ p) (h1 : p ≤ 100) :
    selectStrategy p = .ok (if p = 0 then .noBonus else .percentage p) := by
  unfold selectStrategy
  by_cases hp : p = 0
  · rw [if_pos hp, if_pos hp]
  · rw [if_neg hp, if_neg hp, if_neg (not_lt.mpr h1),
      PercentageBonusStrategy.make_accepts p h0 h1]

/-- A negative percent reaches the constructor and is rejected there. -/
theorem selectStrategy_neg (p : ℚ) (h : p < 0) :
    selectStrategy p = .error (.invalidRate "bonus percent must be >= 0") := by
  unfold selectStrategy
  rw [if_neg (ne_of_lt h), if_neg (not_lt.mpr (by linarith : p ≤ 100)),
    PercentageBonusStrategy.make_neg p h]

/-- A percent above 100 is rejected by the caller-side check, before the
constructor ever runs. -/
theorem selectStrategy_gt (p : ℚ) (h : p > 100) :
    selectStrategy p = .error (.invalidRate "bonus percent cannot exceed 100%") := by
  unfold selectStrategy
  rw [if_neg (ne_of_gt (lt_trans (by norm_num) h)), if_pos h]

/-- Strategy selection succeeds exactly on `[0, 100]`. -/
theorem selectStrategy_ok_iff (p : ℚ) :
    (∃ s, selectStrategy p = .ok s) ↔ (0 ≤ p ∧ p ≤ 100) := by
  constructor
  · rintro ⟨s, hs⟩
    by_cases h0 : p < 0
    · rw [selectStrategy_neg p h0] at hs; simp at hs
    · by_cases h1 : p > 100
      · rw [selectStrategy_gt p h1] at hs; simp at hs
      · exact ⟨not_lt.mp h0, not_lt.mp h1⟩
  · rintro ⟨h0, h1⟩
    exact ⟨_, selectStrategy_ok p h0 h1⟩

/-- Every selection failure is an `InvalidRateException`. -/
theorem selectStrategy_error_invalidRate (p : ℚ) (e : PayrollError)
    (h : selectStrategy p = .error e) : ∃ msg, e = .invalidRate msg := by
  by_cases h0 : p < 0
  · rw [selectStrategy_neg p h0] at h
    exact ⟨_, (Except.error.inj h).symm⟩
  · by_cases h1 : p > 100
    · rw [selectStrategy_gt p h1] at h
      exact ⟨_, (Except.error.inj h).symm⟩
    · rw [selectStrategy_ok p (not_lt.mp h0) (not_lt.mp h1)] at h
      simp at h

/-! ### Helper lemmas: the four branches of `addWorkType` -/

/-- Branch 1: the name already exists — throw the duplicate error. -/
theorem addWorkType_dup (d : PayrollDepartment) (n : String) (b p : ℚ)
    (hex : d.existsWorkType n = true) :
    d.addWorkType n b p =
      ⟨decide (n.length > 50), d,
        some (.duplicateWorkType ("work type '" ++ n ++ "' already exists"))⟩ := by
  unfold PayrollDepartment.addWorkType
  rw [hex]
  rfl

/-- Branch 2: strategy selection throws — the error propagates, state kept. -/
theorem addWorkType_strategyError (d : PayrollDepartment) (n : String) (b p : ℚ)
    (e : PayrollError) (hex : d.existsWorkType n = false)
    (hsel : selectStrategy p = .error e) :
    d.addWorkType n b p = ⟨decide (n.length > 50), d, some e⟩ := by
  unfold PayrollDepartment.addWorkType
  rw [hex, hsel]
  rfl

/-- Branch 3: `WorkTypeBase` construction throws — the error propagates. -/
theorem addWorkType_makeError (d : PayrollDepartment) (n : String) (b p : ℚ)
    (s : IBonusStrategy) (e : PayrollError) (hex : d.existsWorkType n = false)
    (hsel : selectStrategy p = .ok s)
    (hmk : WorkTypeBase.make n b (some s) = .error e) :
    d.addWorkType n b p = ⟨decide (n.length > 50), d, some e⟩ := by
  unfold PayrollDepartment.addWorkType
  rw [hex, hsel]
  dsimp only
  rw [hmk]
  rfl

/-- Branch 4: everything passed — `push_back` appends the new entry. -/
theorem addWorkType_push (d : PayrollDepartment) (n : String) (b p : ℚ)
    (s : IBonusStrategy) (wt : WorkTypeBase) (hex : d.existsWorkType n = false)
    (hsel : selectStrategy p = .ok s)
    (hmk : WorkTypeBase.make n b (some s) = .ok wt) :
    d.addWorkType n b p =
      ⟨decide (n.length > 50), ⟨d.workTypes ++ [wt]⟩, none⟩ := by
  unfold PayrollDepartment.addWorkType
  rw [hex, hsel]
  dsimp only
  rw [hmk]
  rfl

/-! ### Helper lemmas: derived facts about `addWorkType` -/

/-- The advisory flag is `name.length > 50` in every branch, success or
failure. -/
theorem addWorkType_warned (d : PayrollDepartment) (n : String) (b p : ℚ) :
    (d.addWorkType n b p).warned = decide (n.length > 50) := by
  by_cases hex : d.existsWorkType n
  · rw [addWorkType_dup d n b p hex]
  · have hex' : d.existsWorkType n = false := by simpa using hex
    cases hsel : selectStrategy p with
    | error e => rw [addWorkType_strategyError d n b p e hex' hsel]
    | ok s =>
      cases hmk : WorkTypeBase.make n b (some s) with
      | error e => rw [addWorkType_makeError d n b p s e hex' hsel hmk]
      | ok wt => rw [addWorkType_push d n b p s wt hex' hsel hmk]

/-- A failing call leaves the registry exactly as it was. -/
theorem addWorkType_thrown_post (d : PayrollDepartment) (n : String) (b p : ℚ)
    (h : (d.addWorkType n b p).thrown ≠ none) :
    (d.addWorkType n b p).post = d := by
  by_cases hex : d.existsWorkType n
  · rw [addWorkType_dup d n b p hex]
  · have hex' : d.existsWorkType n = false := by simpa using hex
    cases hsel : selectStrategy p with
    | error e => rw [addWorkType_strategyError d n b p e hex' hsel]
    | ok s =>
      cases hmk : WorkTypeBase.make n b (some s) with
      | error e => rw [addWorkType_makeError d n b p s e hex' hsel hmk]
      | ok wt =>
        rw [addWorkType_push d n b p s wt hex' hsel hmk] at h
        simp at h

/-- The call `addWorkType` succeeds exactly when the name is fresh and non-empty, the
bonus percent lies in `[0, 100]`, and the base pay lies in `(0, 1000000]`. -/
theorem addWorkType_thrown_none_iff (d : PayrollDepartment) (n : String) (b p : ℚ) :
    (d.addWorkType n b p).thrown = none ↔
      (d.existsWorkType n = false ∧ 0 ≤ p ∧ p ≤ 100 ∧
        n.isEmpty = false ∧ 0 < b ∧ b ≤ 1000000) := by
  constructor
  · intro h
    by_cases hex : d.existsWorkType n
    · rw [addWorkType_dup d n b p hex] at h; simp at h
    · have hex' : d.existsWorkType n = false := by simpa using hex
      cases hsel : selectStrategy p with
      | error e => rw [addWorkType_strategyError d n b p e hex' hsel] at h; simp at h
      | ok s =>
        cases hmk : WorkTypeBase.make n b (some s) with
        | error e => rw [addWorkType_makeError d n b p s e hex' hsel hmk] at h; simp at h
        | ok wt =>
          obtain ⟨h0, h100⟩ := (selectStrategy_ok_iff p).mp ⟨s, hsel⟩
          obtain ⟨hname, hb0, hb1, -⟩ := (WorkTypeBase.make_ok_iff n b (some s)).mp ⟨wt, hmk⟩
          exact ⟨hex', h0, h100, hname, hb0, hb1⟩
  · rintro ⟨hex, h0, h100, hname, hb0, hb1⟩
    rw [addWorkType_push d n b p _ _ hex (selectStrategy_ok p h0 h100)
      (WorkTypeBase.make_ok n b _ hname hb0 hb1)]

/-- The explicit success equation: with every check passing, the call appends
exactly one entry carrying the chosen strategy. -/
theorem addWorkType_ok (d : PayrollDepartment) (n : String) (b p : ℚ)
    (hex : d.existsWorkType n = false) (h0 : 0 ≤ p) (h100 : p ≤ 100)
    (hname : n.isEmpty = false) (hb0 : 0 < b) (hb1 : b ≤ 1000000) :
    d.addWorkType n b p =
      ⟨decide (n.length > 50),
        ⟨d.workTypes ++ [⟨n, b, if p = 0 then .noBonus else .percentage p⟩]⟩, none⟩ :=
  addWorkType_push d n b p _ _ hex (selectStrategy_ok p h0 h100)
    (WorkTypeBase.make_ok n b _ hname hb0 hb1)

/-- On success the post-state is the old sequence with one entry appended. -/
theorem addWorkType_success_shape (d : PayrollDepartment) (n : String) (b p : ℚ)
    (h : (d.addWorkType n b p).thrown = none) :
    (d.addWorkType n b p).post.workTypes =
      d.workTypes ++ [⟨n, b, if p = 0 then .noBonus else .percentage p⟩] := by
  obtain ⟨hex, h0, h100, hname, hb0, hb1⟩ := (addWorkType_thrown_none_iff d n b p).mp h
  rw [addWorkType_ok d n b p hex h0 h100 hname hb0 hb1]

/-- A freshly added name is found by the duplicate scan afterwards. -/
theorem existsWorkType_post_self (d : PayrollDepartment) (n : String) (b p : ℚ)
    (h : (d.addWorkType n b p).thrown = none) :
    (d.addWorkType n b p).post.existsWorkType n = true := by
  have hshape := addWorkType_success_shape d n b p h
  unfold PayrollDepartment.existsWorkType
  rw [hshape]
  simp

/-- The duplicate scan fails exactly when the name occurs among the stored
names. -/
theorem existsWorkType_eq_false_iff (d : PayrollDepartment) (n : String) :
    d.existsWorkType n = false ↔ n ∉ d.workTypes.map WorkTypeBase.name := by
  unfold PayrollDepartment.existsWorkType
  simp only [List.any_eq_false, beq_iff_eq, List.mem_map, not_exists, not_and]

/-- The running sum of `calculateAveragePay` is the sum of the final pays. -/
theorem foldl_getFinalPay (l : List WorkTypeBase) :
    l.foldl (fun sum w => sum + w.getFinalPay) 0 =
      (l.map WorkTypeBase.getFinalPay).sum := by
  rw [List.sum_eq_foldl, List.foldl_map]

/-- Construction of `PercentageBonusStrategy` succeeds exactly on `[0, 100]`. -/
theorem PercentageBonusStrategy.make_range_iff (p : ℚ) :
    (∃ s, PercentageBonusStrategy.make p = .ok s) ↔ (0 ≤ p ∧ p ≤ 100) := by
  constructor
  · rintro ⟨s, hs⟩
    by_cases h0 : p < 0
    · rw [PercentageBonusStrategy.make_neg p h0] at hs; simp at hs
    · by_cases h1 : p > 100
      · rw [PercentageBonusStrategy.make_gt p h1] at hs; simp at hs
      · exact ⟨not_lt.mp h0, not_lt.mp h1⟩
  · rintro ⟨h0, h1⟩
    exact ⟨_, PercentageBonusStrategy.make_accepts p h0 h1⟩

/-! ### The claims -/

/-- C1: every successful `addWorkType(name, basePay, bonusPercent)` stores an
entry whose `finalPay` equals `basePay * (1 + bonusPercent / 100)` exactly;
on the `bonusPercent = 0` (no-bonus) path it equals `basePay` exactly, with
no rounding anywhere in the core. -/
theorem claim_C1_final_pay (d : PayrollDepartment) (n : String) (b p : ℚ)
    (h : (d.addWorkType n b p).thrown = none) :
    ∃ wt : WorkTypeBase,
      (d.addWorkType n b p).post.workTypes = d.workTypes ++ [wt] ∧
      wt.name = n ∧ wt.basePay = b ∧
      wt.getFinalPay = b * (1 + p / 100) ∧
      (p = 0 → wt.getFinalPay = b) := by
  refine ⟨⟨n, b, if p = 0 then .noBonus else .percentage p⟩,
    addWorkType_success_shape d n b p h, rfl, rfl, ?_, ?_⟩
  · by_cases hp : p = 0
    · subst hp
      norm_num [WorkTypeBase.getFinalPay, computePay]
    · simp [WorkTypeBase.getFinalPay, computePay, hp]
  · intro hp
    subst hp
    norm_num [WorkTypeBase.getFinalPay, computePay]

/-- C1 witness: the concrete successful call `addWorkType "A" 100 50` on the
empty registry. -/
theorem claim_C1_final_pay_witness :
    ∃ wt : WorkTypeBase,
      ((⟨[]⟩ : PayrollDepartment).addWorkType "A" 100 50).post.workTypes =
        (⟨[]⟩ : PayrollDepartment).workTypes ++ [wt] ∧
      wt.name = "A" ∧ wt.basePay = 100 ∧
      wt.getFinalPay = 100 * (1 + 50 / 100) ∧
      ((50 : ℚ) = 0 → wt.getFinalPay = 100) :=
  claim_C1_final_pay ⟨[]⟩ "A" 100 50 rfl

/-- C2: `calculateAveragePay` fails with `EmptyWorkList` if and only if the
registry holds zero entries; on every non-empty registry it returns the
exact arithmetic mean of `finalPay` over the stored entries (no rounding);
on one entry it equals that entry's `finalPay`; on the entries
{100 at 0 percent, 200 at 50 percent} it returns (100 + 300) / 2 = 200. -/
theorem claim_C2_average :
    (∀ d : PayrollDepartment,
      (∃ msg, d.calculateAveragePay = .error (.emptyWorkList msg)) ↔ d.workTypes = []) ∧
    (∀ d : PayrollDepartment, d.workTypes ≠ [] →
      d.calculateAveragePay =
        .ok ((d.workTypes.map WorkTypeBase.getFinalPay).sum / (d.workTypes.length : ℚ))) ∧
    (∀ wt : WorkTypeBase,
      (⟨[wt]⟩ : PayrollDepartment).calculateAveragePay = .ok wt.getFinalPay) ∧
    ((⟨[⟨"A", 100, .noBonus⟩, ⟨"B", 200, .percentage 50⟩]⟩ : PayrollDepartment).calculateAveragePay
      = .ok ((100 + 300) / 2)) ∧ ((100 + 300) / 2 : ℚ) = 200 := by
  have hnonempty : ∀ d : PayrollDepartment, d.workTypes ≠ [] →
      d.calculateAveragePay =
        .ok ((d.workTypes.map WorkTypeBase.getFinalPay).sum / (d.workTypes.length : ℚ)) := by
    intro d hd
    unfold PayrollDepartment.calculateAveragePay
    rw [if_neg (by simpa using hd), foldl_getFinalPay]
  refine ⟨?_, hnonempty, ?_, ?_, by norm_num⟩
  · intro d
    rcases hd : d.workTypes with _ | ⟨w, l⟩
    · unfold PayrollDepartment.calculateAveragePay
      rw [hd]
      exact iff_of_true ⟨_, rfl⟩ rfl
    · rw [hnonempty d (by rw [hd]; simp)]
      constructor
      · rintro ⟨msg, hmsg⟩
        exact absurd hmsg (by simp)
      · intro h
        simp at h
  · intro wt
    rw [hnonempty ⟨[wt]⟩ (by simp)]
    norm_num
  · rw [hnonempty _ (by simp)]
    norm_num [WorkTypeBase.getFinalPay, computePay]

/-- C3: every failing `addWorkType` (duplicate or invalid rate) leaves the
stored sequence exactly as it was; in particular re-adding a stored name
fails with `DuplicateWorkType`, keeps the registry unchanged, and the size
after both calls is the pre-state size plus 1 (1 from empty), not plus 2. -/
theorem claim_C3_atomicity :
    (∀ (d : PayrollDepartment) (n : String) (b p : ℚ),
      (d.addWorkType n b p).thrown ≠ none → (d.addWorkType n b p).post = d) ∧
    (∀ (d : PayrollDepartment) (n : String) (b p b2 p2 : ℚ),
      (d.addWorkType n b p).thrown = none →
      ((d.addWorkType n b p).post.addWorkType n b2 p2).thrown =
        some (.duplicateWorkType ("work type '" ++ n ++ "' already exists")) ∧
      ((d.addWorkType n b p).post.addWorkType n b2 p2).post =
        (d.addWorkType n b p).post ∧
      (d.addWorkType n b p).post.workTypes.length = d.workTypes.length + 1) := by
  refine ⟨addWorkType_thrown_post, ?_⟩
  intro d n b p b2 p2 h
  have hex := existsWorkType_post_self d n b p h
  refine ⟨?_, ?_, ?_⟩
  · rw [addWorkType_dup _ n b2 p2 hex]
  · rw [addWorkType_dup _ n b2 p2 hex]
  · rw [addWorkType_success_shape d n b p h]
    simp

/-- C4: the no-two-entries-share-a-name invariant (exact, case-sensitive
comparison) holds for the empty registry and is preserved by every
`addWorkType` call; an exact name match against any stored entry makes the
call fail with `DuplicateWorkType`. -/
theorem claim_C4_names_unique :
    namesUnique ⟨[]⟩ ∧
    (∀ (d : PayrollDepartment) (n : String) (b p : ℚ),
      namesUnique d → namesUnique (d.addWorkType n b p).post) ∧
    (∀ (d : PayrollDepartment) (n : String) (b p : ℚ),
      d.existsWorkType n = true →
      (d.addWorkType n b p).thrown =
        some (.duplicateWorkType ("work type '" ++ n ++ "' already exists"))) := by
  refine ⟨by simp [namesUnique], ?_, ?_⟩
  · intro d n b p hd
    cases hth : (d.addWorkType n b p).thrown with
    | some e =>
      rw [addWorkType_thrown_post d n b p (by simp [hth])]
      exact hd
    | none =>
      have hex := ((addWorkType_thrown_none_iff d n b p).mp hth).1
      have hn : n ∉ d.workTypes.map WorkTypeBase.name :=
        (existsWorkType_eq_false_iff d n).mp hex
      unfold namesUnique
      rw [addWorkType_success_shape d n b p hth]
      simp only [List.map_append, List.map_cons, List.map_nil]
      rw [List.nodup_append]
      exact ⟨hd, List.nodup_singleton _, by simpa [List.Disjoint] using hn⟩
  · intro d n b p hex
    rw [addWorkType_dup d n b p hex]

/-- C5: on a fresh, non-empty name with valid base pay, `addWorkType`
succeeds at bonus percent 0 (no-bonus path) and at the inclusive boundary
100, and fails with `InvalidRate` at 100.0001 (rejected by the registry's
upper-bound check, before strategy construction) and at -1 (rejected inside
the percentage-strategy constructor); the constructor itself accepts
exactly the range `0 ≤ rate ≤ 100`. -/
theorem claim_C5_bonus_boundaries :
    (∀ (d : PayrollDepartment) (n : String) (b : ℚ),
      d.existsWorkType n = false → n.isEmpty = false → 0 < b → b ≤ 1000000 →
      ((d.addWorkType n b 0).thrown = none ∧
       (d.addWorkType n b 100).thrown = none ∧
       (d.addWorkType n b 100.0001).thrown =
         some (.invalidRate "bonus percent cannot exceed 100%") ∧
       (d.addWorkType n b (-1)).thrown =
         some (.invalidRate "bonus percent must be >= 0"))) ∧
    (∀ p : ℚ,
      (∃ s, PercentageBonusStrategy.make p = .ok s) ↔ (0 ≤ p ∧ p ≤ 100)) := by
  refine ⟨?_, PercentageBonusStrategy.make_range_iff⟩
  intro d n b hex hname hb0 hb1
  refine ⟨?_, ?_, ?_, ?_⟩
  · exact (addWorkType_thrown_none_iff d n b 0).mpr
      ⟨hex, le_refl 0, by norm_num, hname, hb0, hb1⟩
  · exact (addWorkType_thrown_none_iff d n b 100).mpr
      ⟨hex, by norm_num, le_refl 100, hname, hb0, hb1⟩
  · rw [addWorkType_strategyError d n b 100.0001 _ hex
      (selectStrategy_gt 100.0001 (by norm_num))]
  · rw [addWorkType_strategyError d n b (-1) _ hex
      (selectStrategy_neg (-1) (by norm_num))]

/-- C6: `WorkTypeBase` construction succeeds exactly when the name is
non-empty, the base pay lies in `(0, 1000000]` (the upper bound inclusive)
and a strategy is present; every failure is an `InvalidRate`; an empty name
fails for every base pay and strategy, base pays 0, -5 and 1000001 fail, a
null strategy fails, and base pay 1000000 succeeds. -/
theorem claim_C6_worktype_validation :
    (∀ (n : String) (b : ℚ) (s : Option IBonusStrategy),
      (∃ wt, WorkTypeBase.make n b s = .ok wt) ↔
        (n.isEmpty = false ∧ 0 < b ∧ b ≤ 1000000 ∧ s ≠ none)) ∧
    (∀ (n : String) (b : ℚ) (s : Option IBonusStrategy),
      (∃ wt, WorkTypeBase.make n b s = .ok wt) ∨
        (∃ msg, WorkTypeBase.make n b s = .error (.invalidRate msg))) ∧
    (∀ (b : ℚ) (s : Option IBonusStrategy),
      ∃ msg, WorkTypeBase.make "" b s = .error (.invalidRate msg)) ∧
    (∀ (n : String) (s : Option IBonusStrategy),
      (∃ m, WorkTypeBase.make n 0 s = .error (.invalidRate m)) ∧
      (∃ m, WorkTypeBase.make n (-5) s = .error (.invalidRate m)) ∧
      (∃ m, WorkTypeBase.make n 1000001 s = .error (.invalidRate m))) ∧
    (∀ (n : String) (b : ℚ),
      ∃ m, WorkTypeBase.make n b none = .error (.invalidRate m)) ∧
    (∃ wt, WorkTypeBase.make "A" 1000000 (some .noBonus) = .ok wt) := by
  have hfail : ∀ (n : String) (b : ℚ) (s : Option IBonusStrategy),
      ¬(n.isEmpty = false ∧ 0 < b ∧ b ≤ 1000000 ∧ s ≠ none) →
      ∃ msg, WorkTypeBase.make n b s = .error (.invalidRate msg) := by
    intro n b s hbad
    rcases WorkTypeBase.make_ok_or_invalidRate n b s with hok | herr
    · exact absurd ((WorkTypeBase.make_ok_iff n b s).mp hok) hbad
    · exact herr
  refine ⟨WorkTypeBase.make_ok_iff, WorkTypeBase.make_ok_or_invalidRate, ?_, ?_, ?_, ?_⟩
  · intro b s
    exact hfail "" b s (by intro h; exact absurd h.1 (by decide))
  · intro n s
    exact ⟨hfail n 0 s (by norm_num), hfail n (-5) s (by norm_num),
      hfail n 1000001 s (by norm_num)⟩
  · intro n b
    exact hfail n b none (by simp)
  · exact ⟨_, WorkTypeBase.make_ok "A" 1000000 .noBonus rfl (by norm_num) (by norm_num)⟩

/-- C7: `printAll` (the spec's `listAll`) is total: an empty registry gets
the explicit empty indication (not an error), every non-empty registry gets
the (name, basePay, finalPay) triple of each stored entry in insertion
order, and after one successful add on the empty registry the output is
exactly the one inserted triple. -/
theorem claim_C7_listAll :
    (∀ d : PayrollDepartment, d.workTypes = [] → d.printAll = .empty) ∧
    (∀ d : PayrollDepartment, d.workTypes ≠ [] →
      d.printAll =
        .entries (d.workTypes.map (fun w => (w.name, w.basePay, w.getFinalPay)))) ∧
    (∀ (n : String) (b p : ℚ),
      ((⟨[]⟩ : PayrollDepartment).addWorkType n b p).thrown = none →
      ((⟨[]⟩ : PayrollDepartment).addWorkType n b p).post.printAll =
        .entries [(n, b, b * (1 + p / 100))]) := by
  refine ⟨?_, ?_, ?_⟩
  · intro d hd
    unfold PayrollDepartment.printAll
    rw [if_pos (by simp [hd])]
  · intro d hd
    unfold PayrollDepartment.printAll
    rw [if_neg (by simpa using hd)]
  · intro n b p h
    have hshape := addWorkType_success_shape ⟨[]⟩ n b p h
    unfold PayrollDepartment.printAll
    rw [hshape]
    simp only [List.nil_append]
    rw [if_neg (by simp)]
    by_cases hp : p = 0
    · subst hp
      norm_num [WorkTypeBase.getFinalPay, computePay]
    · simp [WorkTypeBase.getFinalPay, computePay, hp]

/-- C8: the entry count never decreases: a successful `addWorkType` appends
exactly one entry (count goes from N to N + 1), a failing one leaves the
registry exactly as it was, and no operation removes entries. -/
theorem claim_C8_count_monotonic :
    (∀ (d : PayrollDepartment) (n : String) (b p : ℚ),
      d.workTypes.length ≤ (d.addWorkType n b p).post.workTypes.length) ∧
    (∀ (d : PayrollDepartment) (n : String) (b p : ℚ),
      (d.addWorkType n b p).thrown = none →
      (d.addWorkType n b p).post.workTypes.length = d.workTypes.length + 1 ∧
      ∃ wt, (d.addWorkType n b p).post.workTypes = d.workTypes ++ [wt]) ∧
    (∀ (d : PayrollDepartment) (n : String) (b p : ℚ),
      (d.addWorkType n b p).thrown ≠ none → (d.addWorkType n b p).post = d) := by
  have hsucc : ∀ (d : PayrollDepartment) (n : String) (b p : ℚ),
      (d.addWorkType n b p).thrown = none →
      (d.addWorkType n b p).post.workTypes.length = d.workTypes.length + 1 ∧
      ∃ wt, (d.addWorkType n b p).post.workTypes = d.workTypes ++ [wt] := by
    intro d n b p h
    have hshape := addWorkType_success_shape d n b p h
    rw [hshape]
    simp
  refine ⟨?_, hsucc, addWorkType_thrown_post⟩
  intro d n b p
  cases hth : (d.addWorkType n b p).thrown with
  | some e =>
    rw [addWorkType_thrown_post d n b p (by simp [hth])]
  | none =>
    rw [(hsucc d n b p hth).1]
    exact Nat.le_succ _

/-- C9: the long-name advisory is emitted exactly when the supplied name is
longer than 50 characters, and it is computed before the duplicate check
and all validation, so it is emitted on failing calls too. -/
theorem claim_C9_advisory :
    (∀ (d : PayrollDepartment) (n : String) (b p : ℚ),
      ((d.addWorkType n b p).warned = true ↔ n.length > 50)) ∧
    (∀ (d : PayrollDepartment) (n : String) (b p : ℚ) (e : PayrollError),
      (d.addWorkType n b p).thrown = some e →
      ((d.addWorkType n b p).warned = true ↔ n.length > 50)) := by
  have h1 : ∀ (d : PayrollDepartment) (n : String) (b p : ℚ),
      ((d.addWorkType n b p).warned = true ↔ n.length > 50) := by
    intro d n b p
    rw [addWorkType_warned]
    simp
  exact ⟨h1, fun d n b p e _ => h1 d n b p⟩

/-- C10: the query operations modify nothing: a `calculateAveragePay` or
`printAll` call (both `const`, reading `workTypes` only) is the pair of the
unchanged registry — every entry with its name, base pay and bound
strategy — and the computed result, whether that result is a value or an
error. -/
theorem claim_C10_queries_frame :
    ∀ d : PayrollDepartment,
      d.calculateAveragePayOp.1 = d ∧
      d.calculateAveragePayOp.2 = d.calculateAveragePay ∧
      d.printAllOp.1 = d ∧
      d.printAllOp.2 = d.printAll :=
  fun _ => ⟨rfl, rfl, rfl, rfl⟩
